import Mathlib

/-!
Shallow embedding of the laboratory-marketplace backend (Express + Mongoose).

Conventions of the embedding:
* Mongo ObjectIds are modelled as `Nat`.
* JavaScript numbers that carry money (`total`, `sellingPrice`) are modelled
  as `ℚ`; stock quantities are modelled as `Int` (a `$inc` update can drive
  them negative, which the model must be able to represent).
* A Mongoose collection is a `List` of documents; `findById` / `findOne` is
  `List.find?`; `updateMany` / `findByIdAndUpdate` is `List.map` guarded by
  the filter; `save` of a new document appends to the list.
* Each HTTP handler becomes a pure function from its request data and the
  database state to a result (mirroring the JSON response) and the new
  database state.  Every early `res.status(...).json(...); return` in the
  source becomes an error constructor returned together with the unchanged
  state.
-/

namespace Labo

/-- User roles (`role ∈ {client, supplier, admin}` in the User schema). -/
inductive Role where
  | client
  | supplier
  | admin
deriving DecidableEq, Repr

/-- Order status enum of the Commande schema:
`"en cours" | "on route" | "arrived"`. -/
inductive OrderStatus where
  | enCours   -- "en cours"
  | onRoute   -- "on route"
  | arrived   -- "arrived"
deriving DecidableEq, Repr

/-- `User` document (the fields the modelled handlers read). -/
structure User where
  id : Nat
  email : String
  /-- stored credential; `bcrypt.compare` is modelled as string equality -/
  password : String
  firstName : String
  lastName : String
  role : Role
  status : Bool
deriving DecidableEq, Repr

/-- `Product` document (the fields the order handler reads). -/
structure Product where
  id : Nat
  name : String
  sellingPrice : ℚ
  quantity : Int
  supplierId : Option Nat
deriving DecidableEq, Repr

/-- One line item of an order-creation request body (`{id, quantity}`). -/
structure OrderItem where
  id : Nat
  quantity : Int
deriving DecidableEq, Repr

/-- Snapshot line stored inside a Commande document. -/
structure ProcessedProduct where
  productId : Nat
  name : String
  price : ℚ
  quantity : Int
deriving DecidableEq, Repr

/-- `Commande` document. -/
structure Commande where
  id : Nat
  total : ℚ
  products : List ProcessedProduct
  idBuyer : Nat
  idSupplier : Nat
  status : OrderStatus
deriving DecidableEq, Repr

/-- `Notification` document. -/
structure Notification where
  id : Nat
  idSender : Nat
  idReceiver : Nat
  type : String
  message : String
  isRead : Bool
  createdAt : Nat
deriving DecidableEq, Repr

/-- The collections the Commande module touches. -/
structure DB where
  users : List User
  products : List Product
  orders : List Commande
  notifications : List Notification
deriving DecidableEq, Repr

/-- `Model.findById` / keyed `findOne` over a collection. -/
def findUser (us : List User) (uid : Nat) : Option User :=
  us.find? (fun u => u.id == uid)

def findProduct (ps : List Product) (pid : Nat) : Option Product :=
  ps.find? (fun p => p.id == pid)

def findOrder (os : List Commande) (oid : Nat) : Option Commande :=
  os.find? (fun o => o.id == oid)

/-! ### Notification handlers (Notification controller) -/

/-- Stable insertion of a notification into a list sorted by `createdAt`
descending — model of `.sort(\x7b createdAt: -1 \x7d)`. -/
def insertByDesc (n : Notification) : List Notification → List Notification
  | [] => [n]
  | m :: ms => if m.createdAt < n.createdAt then n :: m :: ms else m :: insertByDesc n ms

/-- Sort notifications newest first by `createdAt`. -/
def sortByCreatedAtDesc : List Notification → List Notification
  | [] => []
  | n :: ns => insertByDesc n (sortByCreatedAtDesc ns)

/-- `getNotifications` (Notification controller): filter by
`idReceiver = userId`, add `isRead = false` to the filter only when the
query parameter `unreadOnly` is the string `"true"`, sort by `createdAt`
descending, limit 50.  Returns the notification list of the response. -/
def getNotifications (uid : Nat) (unreadOnly : Option String) (ns : List Notification) :
    List Notification :=
  let base := ns.filter (fun n => n.idReceiver == uid)
  let filtered :=
    if unreadOnly == some "true" then base.filter (fun n => !n.isRead) else base
  (sortByCreatedAtDesc filtered).take 50

/-- `markAllAsRead` (Notification controller):
`updateMany(\x7b idReceiver: userId, isRead: false \x7d, \x7b isRead: true \x7d)`. -/
def markAllAsRead (uid : Nat) (ns : List Notification) : List Notification :=
  ns.map (fun n => if n.idReceiver == uid && !n.isRead then { n with isRead := true } else n)

/-! ### `createOrder` (Commande controller) -/

/-- The early-return error responses of `createOrder`, with their HTTP codes. -/
inductive OrderError where
  | unauthorized                       -- 401 "Unauthorized"
  | emptyProducts                      -- 400 "Products array is required and must not be empty"
  | notClient                          -- 403 "Only clients can create orders"
  | invalidProductData                 -- 400 "Invalid product data"
  | productNotFound (pid : Nat)        -- 404 "Product ... not found"
  | insufficientQuantity (pid : Nat)   -- 400 "Insufficient quantity for product ..."
  | noSupplier                         -- 400 "No supplier found for the products"
  | multipleSuppliers                  -- 400 "All products must be from the same supplier..."
deriving DecidableEq, Repr

inductive CreateOrderResult where
  | created (ord : Commande)           -- 201, order persisted
  | error (e : OrderError)
deriving DecidableEq, Repr

/-- Accumulator of the validation loop of `createOrder`
(`total`, `processedProducts`, `supplierIds`). -/
structure ProcAcc where
  total : ℚ
  processed : List ProcessedProduct
  suppliers : List Nat
deriving DecidableEq, Repr

/-- `Set.add` on the `supplierIds` set, keeping JS insertion order. -/
def insertUnique (l : List Nat) (s : Nat) : List Nat :=
  if l.contains s then l else l ++ [s]

/-- The `for (const item of products)` validation loop of `createOrder`:
per item, check `item.quantity ≥ 1` (`!item.quantity || item.quantity < 1`),
load the product (404 if missing), check stock, collect the supplier id,
accumulate the total and the snapshot line.  Any failure aborts the loop
with the corresponding early-return error. -/
def processItems (ps : List Product) (acc : ProcAcc) : List OrderItem → Except OrderError ProcAcc
  | [] => .ok acc
  | it :: rest =>
    if it.quantity < 1 then .error .invalidProductData
    else
      match findProduct ps it.id with
      | none => .error (.productNotFound it.id)
      | some p =>
        if p.quantity < it.quantity then .error (.insufficientQuantity it.id)
        else
          let suppliers :=
            match p.supplierId with
            | some s => insertUnique acc.suppliers s
            | none => acc.suppliers
          processItems ps
            { total := acc.total + p.sellingPrice * (it.quantity : ℚ)
              processed := acc.processed ++ [⟨p.id, p.name, p.sellingPrice, it.quantity⟩]
              suppliers := suppliers } rest

/-- `$inc: \x7b quantity: -q \x7d` on the product with the given id. -/
def decProduct (ps : List Product) (pid : Nat) (q : Int) : List Product :=
  ps.map (fun p => if p.id == pid then { p with quantity := p.quantity - q } else p)

/-- The post-save decrement loop of `createOrder`: one
`findByIdAndUpdate(item.id, \x7b $inc: \x7b quantity: -item.quantity \x7d \x7d)`
per request item, in request order. -/
def applyDecrements (ps : List Product) (items : List OrderItem) : List Product :=
  items.foldl (fun ps it => decProduct ps it.id it.quantity) ps

/-- `createOrder`.  `newOrderId`, `newNotifId`, `now` stand for the ids and
timestamp the database would mint for the inserted documents. -/
def createOrder (userId : Option Nat) (items : List OrderItem) (db : DB)
    (newOrderId newNotifId now : Nat) : CreateOrderResult × DB :=
  match userId with
  | none => (.error .unauthorized, db)
  | some uid =>
    if items.isEmpty then (.error .emptyProducts, db)
    else
      match findUser db.users uid with
      | none => (.error .notClient, db)
      | some u =>
        if u.role ≠ Role.client then (.error .notClient, db)
        else
          match processItems db.products ⟨0, [], []⟩ items with
          | .error e => (.error e, db)
          | .ok acc =>
            if acc.suppliers.length == 0 then (.error .noSupplier, db)
            else if acc.suppliers.length > 1 then (.error .multipleSuppliers, db)
            else
              let supplierId := acc.suppliers.headD 0
              let ord : Commande :=
                ⟨newOrderId, acc.total, acc.processed, uid, supplierId, .enCours⟩
              let notif : Notification :=
                ⟨newNotifId, uid, supplierId, "new_order",
                 "Nouvelle commande", false, now⟩
              (.created ord,
               { db with
                  orders := db.orders ++ [ord]
                  products := applyDecrements db.products items
                  notifications := db.notifications ++ [notif] })

/-! ### `updateOrderStatus` (Commande controller) -/

/-- Parse the request body `status` string; the handler rejects anything not
in `["en cours", "on route", "arrived"]`. -/
def statusOfString : String → Option OrderStatus
  | "en cours" => some .enCours
  | "on route" => some .onRoute
  | "arrived" => some .arrived
  | _ => none

/-- The unique legal next state of the status chain. -/
def nextStatus : OrderStatus → Option OrderStatus
  | .enCours => some .onRoute
  | .onRoute => some .arrived
  | .arrived => none

inductive UpdateError where
  | unauthorized        -- 401
  | invalidStatus       -- 400 "Invalid status..."
  | orderNotFound       -- 404
  | notSupplier         -- 403 "Only the supplier can update order status"
  | invalidTransition   -- 400, one of the three transition rejections
deriving DecidableEq, Repr

inductive UpdateResult where
  | success (ord : Commande)   -- 200, updated order returned
  | error (e : UpdateError)
deriving DecidableEq, Repr

/-- `updateOrderStatus`: validate the status string, load the order, check
the caller is the order's supplier, enforce the one-step-forward status
machine, then save the new status and insert a buyer notification. -/
def updateOrderStatus (userId : Option Nat) (orderId : Nat) (reqStatus : String)
    (db : DB) (newNotifId now : Nat) : UpdateResult × DB :=
  match userId with
  | none => (.error .unauthorized, db)
  | some uid =>
    match statusOfString reqStatus with
    | none => (.error .invalidStatus, db)
    | some st =>
      match findOrder db.orders orderId with
      | none => (.error .orderNotFound, db)
      | some ord =>
        if ord.idSupplier ≠ uid then (.error .notSupplier, db)
        else if ord.status = .enCours ∧ st ≠ .onRoute then (.error .invalidTransition, db)
        else if ord.status = .onRoute ∧ st ≠ .arrived then (.error .invalidTransition, db)
        else if ord.status = .arrived then (.error .invalidTransition, db)
        else
          let notif : Notification :=
            ⟨newNotifId, uid, ord.idBuyer, "order_status",
             "Statut mis a jour", false, now⟩
          (.success { ord with status := st },
           { db with
              orders := db.orders.map
                (fun o => if o.id == orderId then { o with status := st } else o)
              notifications := db.notifications ++ [notif] })

/-! ### `login` (Client controller) -/

/-- `Abonnement` document; the schema field `end` is a Lean keyword and is
rendered `endDate`. -/
structure Abonnement where
  id : Nat
  id_user : Nat
  endDate : Int
  status : Bool
deriving DecidableEq, Repr

/-- The collections the login handler touches. -/
structure AuthDB where
  users : List User
  abonnements : List Abonnement
deriving DecidableEq, Repr

/-- `User.findOne(\x7b email \x7d)`; the model keeps emails already
lower-cased. -/
def findUserByEmail (us : List User) (email : String) : Option User :=
  us.find? (fun u => u.email == email)

/-- `Abonnement.findOne(\x7b id_user, status: true \x7d)`. -/
def findActiveSub (subs : List Abonnement) (uid : Nat) : Option Abonnement :=
  subs.find? (fun a => a.id_user == uid && a.status)

/-- Login outcome: the denial messages are the literal `message` strings of
the 401/403 responses. -/
inductive LoginResult where
  | success (uid : Nat)
  | denied (message : String)
deriving DecidableEq, Repr

/-- Set `status := false` on the user with the given id (`user.save()`). -/
def deactivateUser (us : List User) (uid : Nat) : List User :=
  us.map (fun u => if u.id == uid then { u with status := false } else u)

/-- Set `status := false` on the subscription with the given id
(`subscription.save()`). -/
def deactivateSub (subs : List Abonnement) (sid : Nat) : List Abonnement :=
  subs.map (fun a => if a.id == sid then { a with status := false } else a)

/-- `login`: find the user by email, compare the password (bcrypt comparison
modelled as string equality), gate client/supplier on `status`, then on an
unexpired active subscription; expiry and absence of a subscription both
deactivate the user as a side effect of the login attempt. -/
def login (email password : String) (st : AuthDB) (now : Int) : LoginResult × AuthDB :=
  match findUserByEmail st.users email with
  | none => (.denied "Invalid email or password", st)
  | some user =>
    if password ≠ user.password then (.denied "Invalid email or password", st)
    else if (user.role = Role.client ∨ user.role = Role.supplier) ∧ user.status = false then
      (.denied "account_not_activated", st)
    else if (user.role = Role.client ∨ user.role = Role.supplier) ∧ user.status = true then
      match findActiveSub st.abonnements user.id with
      | some sub =>
        if sub.endDate < now then
          (.denied "subscription_expired",
           { users := deactivateUser st.users user.id
             abonnements := deactivateSub st.abonnements sub.id })
        else (.success user.id, st)
      | none =>
        (.denied "no_subscription",
         { st with users := deactivateUser st.users user.id })
    else (.success user.id, st)

/-! ### `createPayment` (Payment controller) -/

/-- `Payment` document. -/
structure Payment where
  id : Nat
  id_commande : Nat
  id_owner : Nat
  total : ℚ
  image : String
deriving DecidableEq, Repr

/-- The collections the payment handler touches. -/
structure PayDB where
  orders : List Commande
  payments : List Payment
deriving DecidableEq, Repr

inductive PayError where
  | unauthorized         -- 401
  | missingFields        -- 400 "Commande ID and total are required" / "Invalid total value"
  | missingFile          -- 400 "Payment image is required"
  | commandeNotFound     -- 404
  | notBuyer             -- 403 "You can only create payment for your own orders"
  | duplicatePayment     -- 400 "Payment already exists for this commande"
  | totalMismatch        -- 400 "Total does not match commande total..."
deriving DecidableEq, Repr

/-- Payment outcome carrying the HTTP status code of the response. -/
inductive PayResult where
  | created (p : Payment)              -- 201
  | error (code : Nat) (e : PayError)
deriving DecidableEq, Repr

/-- `Payment.findOne(\x7b id_commande \x7d)`. -/
def findPaymentByCommande (ps : List Payment) (cid : Nat) : Option Payment :=
  ps.find? (fun p => p.id_commande == cid)

/-- `createPayment`: require auth, commande id, a parseable total
(`total : Option ℚ`, `none` covering both a missing and an unparseable
value) and the uploaded proof file; the commande must exist, belong to the
caller, have no payment yet, and the provided total must match the stored
total within `0.01`. -/
def createPayment (userId : Option Nat) (id_commande : Option Nat) (total : Option ℚ)
    (file : Option String) (db : PayDB) (newId : Nat) : PayResult × PayDB :=
  match userId with
  | none => (.error 401 .unauthorized, db)
  | some uid =>
    match id_commande with
    | none => (.error 400 .missingFields, db)
    | some cid =>
      match total with
      | none => (.error 400 .missingFields, db)
      | some paymentTotal =>
        match file with
        | none => (.error 400 .missingFile, db)
        | some filename =>
          match findOrder db.orders cid with
          | none => (.error 404 .commandeNotFound, db)
          | some commande =>
            if commande.idBuyer ≠ uid then (.error 403 .notBuyer, db)
            else
              match findPaymentByCommande db.payments cid with
              | some _ => (.error 400 .duplicatePayment, db)
              | none =>
                if (1 : ℚ)/100 < |commande.total - paymentTotal| then
                  (.error 400 .totalMismatch, db)
                else
                  let payment : Payment := ⟨newId, cid, uid, paymentTotal, filename⟩
                  (.created payment, { db with payments := db.payments ++ [payment] })

/-! ### Derived quantities used to state the claims -/

/-- Total quantity ordered for a given product id across the request items. -/
def orderedQty (items : List OrderItem) (pid : Nat) : Int :=
  ((items.filter (fun it => it.id == pid)).map (fun it => it.quantity)).sum

/-- Σ over items of (current sellingPrice × requested quantity). -/
def itemsTotal (ps : List Product) (items : List OrderItem) : ℚ :=
  (items.map (fun it =>
    match findProduct ps it.id with
    | some p => p.sellingPrice * (it.quantity : ℚ)
    | none => 0)).sum

/-- The snapshot lines `processedProducts` built by the validation loop. -/
def processedOf (ps : List Product) (items : List OrderItem) : List ProcessedProduct :=
  items.map (fun it =>
    match findProduct ps it.id with
    | some p => ⟨p.id, p.name, p.sellingPrice, it.quantity⟩
    | none => ⟨it.id, "", 0, it.quantity⟩)

/-- A line item that passes every per-item check of the validation loop,
with its product owned by supplier `s`. -/
def ItemOK (ps : List Product) (s : Nat) (it : OrderItem) : Prop :=
  1 ≤ it.quantity ∧
    ∃ p, findProduct ps it.id = some p ∧ it.quantity ≤ p.quantity ∧ p.supplierId = some s

/-! ### Helper lemmas -/

/-- `find?` commutes with a map that does not change the searched key. -/
theorem find?_map_eq {α : Type} (f : α → α) (q : α → Bool) (hf : ∀ a, q (f a) = q a) :
    ∀ l : List α, (l.map f).find? q = (l.find? q).map f := by
  intro l
  induction l with
  | nil => rfl
  | cons a l ih =>
    rw [List.map_cons]
    cases h : q a with
    | true =>
      rw [List.find?_cons_of_pos _ (by rw [hf]; exact h), List.find?_cons_of_pos _ h]
      rfl
    | false =>
      rw [List.find?_cons_of_neg _ (by rw [hf, h]; simp),
        List.find?_cons_of_neg _ (by rw [h]; simp), ih]

theorem contains_insertUnique (l : List Nat) (s : Nat) :
    (insertUnique l s).contains s = true := by
  by_cases h : l.contains s
  · rw [insertUnique, if_pos h]
    exact h
  · rw [insertUnique, if_neg h]
    simp

theorem insertUnique_idem (l : List Nat) (s : Nat) :
    insertUnique (insertUnique l s) s = insertUnique l s := by
  have h := contains_insertUnique l s
  conv => lhs; rw [insertUnique]
  rw [if_pos h]

/-- The decrement fold is pointwise: every product loses exactly the total
quantity ordered for its id. -/
theorem applyDecrements_eq_map (items : List OrderItem) :
    ∀ ps : List Product, applyDecrements ps items =
      ps.map (fun p => { p with quantity := p.quantity - orderedQty items p.id }) := by
  induction items with
  | nil =>
    intro ps
    have h : (fun p : Product => { p with quantity := p.quantity - orderedQty [] p.id }) =
        fun p => p := by
      funext p
      simp [orderedQty]
    simp [applyDecrements, h]
  | cons it its ih =>
    intro ps
    have step : applyDecrements ps (it :: its) =
        applyDecrements (decProduct ps it.id it.quantity) its := rfl
    rw [step, ih, decProduct, List.map_map]
    apply List.map_congr_left
    intro p _
    by_cases h : p.id = it.id
    · have hb : (p.id == it.id) = true := by simpa using h
      have hq : orderedQty (it :: its) p.id = it.quantity + orderedQty its p.id := by
        have : (it.id == p.id) = true := by simpa using h.symm
        simp [orderedQty, this]
      simp only [Function.comp_apply, hb, if_pos]
      simp [hq, sub_sub]
    · have hb : (p.id == it.id) = false := by simpa using h
      have hq : orderedQty (it :: its) p.id = orderedQty its p.id := by
        have : (it.id == p.id) = false := by
          simp only [beq_eq_false_iff_ne, ne_eq]
          exact fun hc => h hc.symm
        simp [orderedQty, this]
      simp only [Function.comp_apply, hb]
      simp [hq]

/-- Looking a product up after the decrement loop. -/
theorem findProduct_applyDecrements (ps : List Product) (items : List OrderItem) (pid : Nat) :
    findProduct (applyDecrements ps items) pid =
      (findProduct ps pid).map
        (fun p => { p with quantity := p.quantity - orderedQty items pid }) := by
  rw [applyDecrements_eq_map]
  unfold findProduct
  rw [find?_map_eq
    (fun p : Product => { p with quantity := p.quantity - orderedQty items p.id })
    (fun p => p.id == pid) (fun p => rfl) ps]
  cases h : ps.find? (fun p => p.id == pid) with
  | none => rfl
  | some p =>
    have hid : p.id = pid := by
      have := List.find?_some h
      simpa using this
    simp [hid]

/-- When every item passes its checks and resolves to supplier `s`, the
validation loop succeeds and returns the accumulated total, snapshot lines
and supplier set. -/
theorem processItems_ok (ps : List Product) (s : Nat) :
    ∀ (items : List OrderItem) (acc : ProcAcc),
      (∀ it ∈ items, ItemOK ps s it) →
      processItems ps acc items =
        .ok ⟨acc.total + itemsTotal ps items,
             acc.processed ++ processedOf ps items,
             if items.isEmpty then acc.suppliers else insertUnique acc.suppliers s⟩ := by
  intro items
  induction items with
  | nil =>
    intro acc _
    simp [processItems, itemsTotal, processedOf]
  | cons it its ih =>
    intro acc hok
    obtain ⟨hq, p, hfind, hstock, hsup⟩ := hok it (List.mem_cons_self it its)
    have hq1 : ¬ it.quantity < 1 := by omega
    have hq2 : ¬ p.quantity < it.quantity := by omega
    rw [processItems, if_neg hq1, hfind]
    simp only [if_neg hq2, hsup]
    rw [ih _ (fun x hx => hok x (List.mem_cons_of_mem it hx))]
    have htot : itemsTotal ps (it :: its) =
        p.sellingPrice * (it.quantity : ℚ) + itemsTotal ps its := by
      simp [itemsTotal, hfind]
    have hproc : processedOf ps (it :: its) =
        ⟨p.id, p.name, p.sellingPrice, it.quantity⟩ :: processedOf ps its := by
      simp [processedOf, hfind]
    rw [htot, hproc]
    have hcons : ((it :: its).isEmpty = true) = False := by simp
    simp only [Except.ok.injEq, ProcAcc.mk.injEq, hcons, if_false]
    refine ⟨by ring, by simp, ?_⟩
    by_cases h : its.isEmpty
    · rw [if_pos h]
    · rw [if_neg h, insertUnique_idem]

/-- On a fully valid request, `createOrder` evaluates to the success branch:
order appended, decrements applied, notification appended. -/
theorem createOrder_ok_eq
    (db : DB) (uid : Nat) (u : User) (items : List OrderItem) (s : Nat) (oid nid now : Nat)
    (hu : findUser db.users uid = some u) (hrole : u.role = Role.client)
    (hne : items ≠ [])
    (hitems : ∀ it ∈ items, ItemOK db.products s it) :
    createOrder (some uid) items db oid nid now =
      (.created ⟨oid, itemsTotal db.products items, processedOf db.products items,
          uid, s, .enCours⟩,
       { db with
          orders := db.orders ++
            [⟨oid, itemsTotal db.products items, processedOf db.products items,
              uid, s, .enCours⟩]
          products := applyDecrements db.products items
          notifications := db.notifications ++
            [⟨nid, uid, s, "new_order", "Nouvelle commande", false, now⟩] }) := by
  have hie : items.isEmpty = false := by
    cases items with
    | nil => exact absurd rfl hne
    | cons a l => rfl
  have hproc := processItems_ok db.products s items ⟨0, [], []⟩ hitems
  rw [hie] at hproc
  simp only [Bool.false_eq_true, if_false, zero_add, List.nil_append] at hproc
  have hins : insertUnique [] s = [s] := by simp [insertUnique]
  rw [hins] at hproc
  simp only [createOrder, hie, hu, hproc, hrole]
  simp

/-- C1: For every order-creation request from an authenticated client in
which every line item references an existing product with available
quantity at least the requested quantity and all items resolve to one
supplier, the handler persists an order whose total equals the sum over
items of (the product's current sellingPrice times the requested quantity),
and each referenced product's stored quantity decreases by exactly the
total quantity ordered for it. -/
theorem createOrder_valid_total_and_decrements
    (db : DB) (uid : Nat) (u : User) (items : List OrderItem) (s : Nat) (oid nid now : Nat)
    (hu : findUser db.users uid = some u) (hrole : u.role = Role.client)
    (hne : items ≠ [])
    (hitems : ∀ it ∈ items, ItemOK db.products s it) :
    ∃ ord,
      (createOrder (some uid) items db oid nid now).1 = .created ord ∧
      ord.total = itemsTotal db.products items ∧
      ord ∈ (createOrder (some uid) items db oid nid now).2.orders ∧
      ∀ pid, findProduct (createOrder (some uid) items db oid nid now).2.products pid =
        (findProduct db.products pid).map
          (fun p => { p with quantity := p.quantity - orderedQty items pid }) := by
  rw [createOrder_ok_eq db uid u items s oid nid now hu hrole hne hitems]
  exact ⟨_, rfl, rfl, by simp, fun pid => findProduct_applyDecrements db.products items pid⟩

/-! ### Concrete database used by the witnesses -/

def exUser : User := ⟨1, "client@labo.dz", "pw", "Ali", "B", Role.client, true⟩

def exProduct : Product := ⟨10, "tube", 5, 3, some 2⟩

def exDB : DB := ⟨[exUser], [exProduct], [], []⟩

def exItems : List OrderItem := [⟨10, 2⟩]

/-- Witness for C1: a concrete valid order request. -/
theorem createOrder_valid_total_and_decrements_witness :
    ∃ ord,
      (createOrder (some 1) exItems exDB 100 200 7).1 = .created ord ∧
      ord.total = itemsTotal exDB.products exItems ∧
      ord ∈ (createOrder (some 1) exItems exDB 100 200 7).2.orders ∧
      ∀ pid, findProduct (createOrder (some 1) exItems exDB 100 200 7).2.products pid =
        (findProduct exDB.products pid).map
          (fun p => { p with quantity := p.quantity - orderedQty exItems pid }) :=
  createOrder_valid_total_and_decrements exDB 1 exUser exItems 2 100 200 7
    rfl rfl (by decide)
    (fun it hit => by
      have hit2 : it = ⟨10, 2⟩ := by
        simpa [exItems] using hit
      subst hit2
      exact ⟨by decide, exProduct, rfl, by decide, rfl⟩)

/-- A line item that passes the per-item checks, with any (or no)
supplier. -/
def ItemOKany (ps : List Product) (it : OrderItem) : Prop :=
  1 ≤ it.quantity ∧ ∃ p, findProduct ps it.id = some p ∧ it.quantity ≤ p.quantity

/-- The supplier-id set (insertion-ordered, duplicate-free) collected by
the validation loop. -/
def supFold (ps : List Product) (acc : List Nat) : List OrderItem → List Nat
  | [] => acc
  | it :: rest =>
    supFold ps
      (match findProduct ps it.id with
       | some p =>
         match p.supplierId with
         | some s => insertUnique acc s
         | none => acc
       | none => acc) rest

/-- When every item passes its checks, the validation loop succeeds and
its supplier set is `supFold`. -/
theorem processItems_ok_any (ps : List Product) :
    ∀ (items : List OrderItem) (acc : ProcAcc),
      (∀ it ∈ items, ItemOKany ps it) →
      processItems ps acc items =
        .ok ⟨acc.total + itemsTotal ps items,
             acc.processed ++ processedOf ps items,
             supFold ps acc.suppliers items⟩ := by
  intro items
  induction items with
  | nil =>
    intro acc _
    simp [processItems, itemsTotal, processedOf, supFold]
  | cons it its ih =>
    intro acc hok
    obtain ⟨hq, p, hfind, hstock⟩ := hok it (List.mem_cons_self it its)
    have hq1 : ¬ it.quantity < 1 := by omega
    have hq2 : ¬ p.quantity < it.quantity := by omega
    rw [processItems, if_neg hq1, hfind]
    simp only [if_neg hq2]
    have htot : itemsTotal ps (it :: its) =
        p.sellingPrice * (it.quantity : ℚ) + itemsTotal ps its := by
      simp [itemsTotal, hfind]
    have hproc : processedOf ps (it :: its) =
        ⟨p.id, p.name, p.sellingPrice, it.quantity⟩ :: processedOf ps its := by
      simp [processedOf, hfind]
    have hsf : supFold ps acc.suppliers (it :: its) =
        supFold ps
          (match p.supplierId with
           | some s => insertUnique acc.suppliers s
           | none => acc.suppliers) its := by
      rw [supFold, hfind]
    cases hps : p.supplierId with
    | none =>
      rw [ih _ (fun x hx => hok x (List.mem_cons_of_mem it hx))]
      rw [htot, hproc, hsf, hps]
      simp only [Except.ok.injEq, ProcAcc.mk.injEq]
      exact ⟨by ring, by simp, trivial⟩
    | some s =>
      rw [ih _ (fun x hx => hok x (List.mem_cons_of_mem it hx))]
      rw [htot, hproc, hsf, hps]
      simp only [Except.ok.injEq, ProcAcc.mk.injEq]
      exact ⟨by ring, by simp, trivial⟩

theorem mem_insertUnique_self (l : List Nat) (s : Nat) : s ∈ insertUnique l s := by
  by_cases h : l.contains s
  · rw [insertUnique, if_pos h]
    simpa using h
  · rw [insertUnique, if_neg h]
    simp

theorem mem_insertUnique_of_mem (l : List Nat) (s x : Nat) (hx : x ∈ l) :
    x ∈ insertUnique l s := by
  rw [insertUnique]
  split
  · exact hx
  · exact List.mem_append_left _ hx

theorem mem_supFold_of_mem (ps : List Product) (x : Nat) :
    ∀ (items : List OrderItem) (acc : List Nat), x ∈ acc → x ∈ supFold ps acc items := by
  intro items
  induction items with
  | nil =>
    intro acc h
    exact h
  | cons it its ih =>
    intro acc h
    rw [supFold]
    apply ih
    cases hf : findProduct ps it.id with
    | none => exact h
    | some p =>
      show x ∈ (match p.supplierId with
        | some s => insertUnique acc s
        | none => acc)
      cases hps : p.supplierId with
      | none => exact h
      | some s => exact mem_insertUnique_of_mem acc s x h

/-- The supplier of any processed item ends up in the supplier set. -/
theorem mem_supFold_of_item (ps : List Product) :
    ∀ (items : List OrderItem) (acc : List Nat) (it : OrderItem) (p : Product) (s : Nat),
      it ∈ items → findProduct ps it.id = some p → p.supplierId = some s →
      s ∈ supFold ps acc items := by
  intro items
  induction items with
  | nil =>
    intro acc it p s h _ _
    cases h
  | cons a l ih =>
    intro acc it p s hmem hf hs
    rw [supFold]
    rcases List.mem_cons.mp hmem with h | h
    · subst h
      simp only [hf, hs]
      exact mem_supFold_of_mem ps s l (insertUnique acc s) (mem_insertUnique_self acc s)
    · exact ih _ it p s h hf hs

theorem one_lt_length_of_two_mem {l : List Nat} {a b : Nat}
    (ha : a ∈ l) (hb : b ∈ l) (hab : a ≠ b) : 1 < l.length := by
  cases l with
  | nil => cases ha
  | cons x xs =>
    cases xs with
    | nil =>
      simp only [List.mem_singleton] at ha hb
      exact absurd (ha.trans hb.symm) hab
    | cons y ys =>
      simp only [List.length_cons]
      omega

/-- Every path of `createOrder` either leaves the database untouched or
reports a created order. -/
theorem createOrder_state_cases (userId : Option Nat) (items : List OrderItem) (db : DB)
    (oid nid now : Nat) :
    (createOrder userId items db oid nid now).2 = db ∨
      ∃ o, (createOrder userId items db oid nid now).1 = .created o := by
  unfold createOrder
  rcases userId with _ | uid
  · exact Or.inl rfl
  · dsimp only
    repeat' split
    all_goals first
      | exact Or.inl rfl
      | exact Or.inr ⟨_, rfl⟩

/-- C2: For every order-creation request that fails any validation step,
the handler rejects the request and performs no persistence write: no
order is created, no product quantity is mutated, and no notification
record is inserted (the database is returned unchanged); in particular an
otherwise valid request whose items resolve to two distinct suppliers is
rejected. -/
theorem createOrder_fail_closed (userId : Option Nat) (items : List OrderItem) (db : DB)
    (oid nid now : Nat) :
    (∀ e, (createOrder userId items db oid nid now).1 = .error e →
      (createOrder userId items db oid nid now).2 = db) ∧
    (∀ uid u it1 it2 p1 p2 s1 s2,
      userId = some uid → findUser db.users uid = some u → u.role = Role.client →
      (∀ it ∈ items, ItemOKany db.products it) →
      it1 ∈ items → it2 ∈ items →
      findProduct db.products it1.id = some p1 → p1.supplierId = some s1 →
      findProduct db.products it2.id = some p2 → p2.supplierId = some s2 →
      s1 ≠ s2 →
      (createOrder userId items db oid nid now).1 = .error .multipleSuppliers ∧
        (createOrder userId items db oid nid now).2 = db) := by
  constructor
  · intro e h
    rcases createOrder_state_cases userId items db oid nid now with h2 | ⟨o, h2⟩
    · exact h2
    · rw [h2] at h
      exact CreateOrderResult.noConfusion h
  · rintro uid u it1 it2 p1 p2 s1 s2 rfl hu hrole hall hit1 hit2 hp1 hs1 hp2 hs2 hne
    have hie : items.isEmpty = false := by
      cases items with
      | nil => cases hit1
      | cons a l => rfl
    have hproc := processItems_ok_any db.products items ⟨0, [], []⟩ hall
    have hmem1 : s1 ∈ supFold db.products [] items :=
      mem_supFold_of_item db.products items [] it1 p1 s1 hit1 hp1 hs1
    have hmem2 : s2 ∈ supFold db.products [] items :=
      mem_supFold_of_item db.products items [] it2 p2 s2 hit2 hp2 hs2
    have hlen : 1 < (supFold db.products [] items).length :=
      one_lt_length_of_two_mem hmem1 hmem2 hne
    have hco : createOrder (some uid) items db oid nid now =
        (.error .multipleSuppliers, db) := by
      simp only [createOrder, hie, hu, hproc, hrole]
      rw [if_neg (show ¬(((supFold db.products [] items).length == 0) = true) by
            simp only [beq_iff_eq]
            omega),
        if_pos hlen]
      simp
    rw [hco]
    exact ⟨rfl, rfl⟩

def exProduct2 : Product := ⟨11, "kit", 3, 5, some 4⟩

def twoSupDB : DB := ⟨[exUser], [exProduct, exProduct2], [], []⟩

def twoSupItems : List OrderItem := [⟨10, 1⟩, ⟨11, 1⟩]

/-- Witness for C2: a request mixing products of suppliers 2 and 4 is
rejected with the same-supplier error and writes nothing. -/
theorem createOrder_fail_closed_witness :
    (createOrder (some 1) twoSupItems twoSupDB 100 200 7).1 = .error .multipleSuppliers ∧
    (createOrder (some 1) twoSupItems twoSupDB 100 200 7).2 = twoSupDB :=
  (createOrder_fail_closed (some 1) twoSupItems twoSupDB 100 200 7).2
    1 exUser ⟨10, 1⟩ ⟨11, 1⟩ exProduct exProduct2 2 4 rfl rfl rfl
    (fun it hit => by
      rcases List.mem_cons.mp hit with h | h
      · subst h
        exact ⟨by decide, exProduct, rfl, by decide⟩
      · have h2 : it = ⟨11, 1⟩ := by simpa [twoSupItems] using h
        subst h2
        exact ⟨by decide, exProduct2, rfl, by decide⟩)
    (by decide) (by decide) rfl rfl rfl rfl (by decide)

/-- Looking an order up after the status write of `updateOrderStatus`. -/
theorem findOrder_setStatus (os : List Commande) (oid : Nat) (st : OrderStatus) (ord : Commande)
    (hord : findOrder os oid = some ord) :
    findOrder (os.map (fun o => if o.id == oid then { o with status := st } else o)) oid =
      some { ord with status := st } := by
  have hid : (ord.id == oid) = true := by
    have h := List.find?_some hord
    simpa using h
  unfold findOrder at hord ⊢
  rw [find?_map_eq (fun o => if o.id == oid then { o with status := st } else o)
      (fun o => o.id == oid)
      (fun o => by by_cases h : (o.id == oid) = true <;> simp [h]) os, hord]
  have hids : ord.id = oid := by simpa using hid
  simp [hids]

/-- C3: For every stored order and every status-update request by the
order's supplier, the update succeeds exactly when the requested status is
the unique legal successor of the stored status in the chain
en cours → on route → arrived; any other requested transition is rejected
and the stored status is unchanged. -/
theorem updateOrderStatus_transition (db : DB) (uid oid : Nat) (req : String)
    (nid now : Nat) (ord : Commande)
    (hord : findOrder db.orders oid = some ord) (hsup : ord.idSupplier = uid) :
    ((∃ o, (updateOrderStatus (some uid) oid req db nid now).1 = .success o) ↔
      (∃ t, statusOfString req = some t ∧ nextStatus ord.status = some t)) ∧
    ((¬ ∃ t, statusOfString req = some t ∧ nextStatus ord.status = some t) →
      findOrder (updateOrderStatus (some uid) oid req db nid now).2.orders oid = some ord) ∧
    (∀ t, statusOfString req = some t → nextStatus ord.status = some t →
      findOrder (updateOrderStatus (some uid) oid req db nid now).2.orders oid =
        some { ord with status := t }) := by
  cases hst : statusOfString req with
  | none =>
    have hred : updateOrderStatus (some uid) oid req db nid now = (.error .invalidStatus, db) := by
      simp only [updateOrderStatus, hst]
    rw [hred]
    simp [hord]
  | some st =>
    have hfind : ∀ t, findOrder (db.orders.map
        (fun o => if o.id == oid then { o with status := t } else o)) oid =
        some { ord with status := t } :=
      fun t => findOrder_setStatus db.orders oid t ord hord
    have hred : updateOrderStatus (some uid) oid req db nid now =
        (if ord.status = .enCours ∧ st ≠ .onRoute then (.error .invalidTransition, db)
         else if ord.status = .onRoute ∧ st ≠ .arrived then (.error .invalidTransition, db)
         else if ord.status = .arrived then (.error .invalidTransition, db)
         else (.success { ord with status := st },
           { db with
              orders := db.orders.map
                (fun o => if o.id == oid then { o with status := st } else o)
              notifications := db.notifications ++
                [⟨nid, uid, ord.idBuyer, "order_status", "Statut mis a jour", false, now⟩] })) := by
      simp only [updateOrderStatus, hst, hord]
      rw [if_neg (by rw [hsup]; simp)]
    rw [hred]
    cases hos : ord.status <;> cases st <;> simp_all [nextStatus]

/-- Concrete order used by the status-transition and payment witnesses. -/
def exOrder : Commande := ⟨50, 10, [⟨10, "tube", 5, 2⟩], 1, 2, .enCours⟩

def exOrderDB : DB := ⟨[], [], [exOrder], []⟩

/-- Witness for C3: supplier 2 advancing order 50 from en cours. -/
theorem updateOrderStatus_transition_witness :
    ((∃ o, (updateOrderStatus (some 2) 50 "on route" exOrderDB 300 8).1 = .success o) ↔
      (∃ t, statusOfString "on route" = some t ∧ nextStatus exOrder.status = some t)) ∧
    ((¬ ∃ t, statusOfString "on route" = some t ∧ nextStatus exOrder.status = some t) →
      findOrder (updateOrderStatus (some 2) 50 "on route" exOrderDB 300 8).2.orders 50 =
        some exOrder) ∧
    (∀ t, statusOfString "on route" = some t → nextStatus exOrder.status = some t →
      findOrder (updateOrderStatus (some 2) 50 "on route" exOrderDB 300 8).2.orders 50 =
        some { exOrder with status := t }) :=
  updateOrderStatus_transition exOrderDB 2 50 "on route" 300 8 exOrder rfl rfl

/-! ### Stock non-negativity (C5) -/

theorem orderedQty_cons (a : OrderItem) (l : List OrderItem) (pid : Nat) :
    orderedQty (a :: l) pid =
      (if a.id == pid then a.quantity else 0) + orderedQty l pid := by
  by_cases h : (a.id == pid) = true
  · simp [orderedQty, List.filter_cons, h]
  · simp [orderedQty, List.filter_cons, h]

theorem orderedQty_eq_zero (items : List OrderItem) (pid : Nat)
    (h : ∀ it ∈ items, it.id ≠ pid) : orderedQty items pid = 0 := by
  have hfe : items.filter (fun it => it.id == pid) = [] := by
    rw [List.filter_eq_nil_iff]
    intro it hit
    simp [h it hit]
  rw [orderedQty, hfe]
  rfl

/-- Amid pairwise-distinct item ids, the total ordered quantity for an
item's product id is that item's own quantity. -/
theorem orderedQty_of_nodup (items : List OrderItem) (it : OrderItem)
    (hmem : it ∈ items) (hnd : (items.map OrderItem.id).Nodup) :
    orderedQty items it.id = it.quantity := by
  induction items with
  | nil => cases hmem
  | cons a l ih =>
    rw [List.map_cons, List.nodup_cons] at hnd
    rcases List.mem_cons.mp hmem with h | h
    · subst h
      have hz : orderedQty l it.id = 0 := by
        apply orderedQty_eq_zero
        intro x hx heq
        exact hnd.1 (heq ▸ List.mem_map_of_mem OrderItem.id hx)
      rw [orderedQty_cons, hz, if_pos (by simp)]
      omega
    · have hne : (a.id == it.id) ≠ true := by
        simp only [ne_eq, beq_iff_eq]
        intro heq
        exact hnd.1 (heq ▸ List.mem_map_of_mem OrderItem.id h)
      rw [orderedQty_cons, if_neg hne, ih h hnd.2]
      omega

/-- With pairwise-distinct product ids, `findById` of a stored product's
own id returns that product. -/
theorem findProduct_eq_of_mem_nodup (ps : List Product) (p : Product)
    (hmem : p ∈ ps) (hnd : (ps.map Product.id).Nodup) :
    findProduct ps p.id = some p := by
  induction ps with
  | nil => cases hmem
  | cons a l ih =>
    rw [List.map_cons, List.nodup_cons] at hnd
    rcases List.mem_cons.mp hmem with h | h
    · subst h
      simp [findProduct, List.find?_cons]
    · have hne : (a.id == p.id) = false := by
        simp only [beq_eq_false_iff_ne, ne_eq]
        intro heq
        exact hnd.1 (heq ▸ List.mem_map_of_mem Product.id h)
      have ihh := ih h hnd.2
      rw [findProduct] at ihh ⊢
      simp only [List.find?_cons, hne]
      exact ihh

/-- Request with the same product referenced by two line items against a
stock of 1: both per-item checks pass, the decrement applies twice. -/
def dupProduct : Product := ⟨10, "tube", 5, 1, some 2⟩

def dupDB : DB := ⟨[exUser], [dupProduct], [], []⟩

def dupItems : List OrderItem := [⟨10, 1⟩, ⟨10, 1⟩]

/-- Counterexample for C5: the duplicate-line-item request is accepted and
drives the stored quantity of product 10 to -1. -/
theorem createOrder_duplicate_items_negative_quantity :
    (∃ o, (createOrder (some 1) dupItems dupDB 100 200 7).1 = .created o) ∧
    ∃ p, findProduct (createOrder (some 1) dupItems dupDB 100 200 7).2.products 10 = some p ∧
      p.quantity < 0 :=
  ⟨⟨_, rfl⟩, _, rfl, by decide⟩

/-- C5 (amended): an accepted order-creation request in which no product id
appears in more than one line item preserves non-negativity of every stored
product quantity (product ids unique, all stored quantities non-negative
beforehand). -/
theorem createOrder_distinct_items_nonneg
    (db : DB) (uid : Nat) (u : User) (items : List OrderItem) (s : Nat) (oid nid now : Nat)
    (hu : findUser db.users uid = some u) (hrole : u.role = Role.client)
    (hne : items ≠ [])
    (hitems : ∀ it ∈ items, ItemOK db.products s it)
    (hdistinct : (items.map OrderItem.id).Nodup)
    (hpid : (db.products.map Product.id).Nodup)
    (hnn : ∀ p ∈ db.products, 0 ≤ p.quantity) :
    ∀ p ∈ (createOrder (some uid) items db oid nid now).2.products, 0 ≤ p.quantity := by
  rw [createOrder_ok_eq db uid u items s oid nid now hu hrole hne hitems]
  intro p2 hp2
  simp only at hp2
  rw [applyDecrements_eq_map] at hp2
  obtain ⟨p, hpmem, hpeq⟩ := List.mem_map.mp hp2
  subst hpeq
  simp only
  have hnnp := hnn p hpmem
  by_cases hc : ∃ it ∈ items, it.id = p.id
  · obtain ⟨it, hitmem, hitid⟩ := hc
    have hq1 : orderedQty items p.id = it.quantity := by
      rw [← hitid]
      exact orderedQty_of_nodup items it hitmem hdistinct
    obtain ⟨_, q, hfq, hstock, _⟩ := hitems it hitmem
    have hfp : findProduct db.products p.id = some p :=
      findProduct_eq_of_mem_nodup db.products p hpmem hpid
    rw [hitid, hfp] at hfq
    injection hfq with hqp
    subst hqp
    rw [hq1]
    omega
  · push_neg at hc
    rw [orderedQty_eq_zero items p.id hc]
    omega

/-- Witness for C5 (amended): after the concrete valid single-item order,
the stored record of product 10 (now at quantity 1) is non-negative. -/
theorem createOrder_distinct_items_nonneg_witness :
    0 ≤ (⟨10, "tube", 5, 1, some 2⟩ : Product).quantity :=
  createOrder_distinct_items_nonneg exDB 1 exUser exItems 2 100 200 7
    rfl rfl (by decide)
    (fun it hit => by
      have hit2 : it = ⟨10, 2⟩ := by
        simpa [exItems] using hit
      subst hit2
      exact ⟨by decide, exProduct, rfl, by decide, rfl⟩)
    (by decide) (by decide) (by decide)
    ⟨10, "tube", 5, 1, some 2⟩ (by decide)

/-! ### Notification claims (C4, C7) -/

/-- A stored notification that is already read, addressed to user 1. -/
def exReadNotif : Notification := ⟨1, 2, 1, "system", "déjà lu", true, 5⟩

/-- Evaluation of `getNotifications` at the C4 failing input: with no
`unreadOnly` query parameter the handler returns the notification whose
`isRead` flag is true, contradicting the unread-only-by-default reading
(and the handler's own doc comment). -/
theorem getNotifications_default_returns_read :
    getNotifications 1 none [exReadNotif] = [exReadNotif] ∧ exReadNotif.isRead = true :=
  ⟨rfl, rfl⟩

/-- C7: after `markAllAsRead` no notification addressed to the user is
unread, and every notification addressed to any other user is unchanged
(it survives as the very same document). -/
theorem markAllAsRead_spec (uid : Nat) (ns : List Notification) :
    (∀ n ∈ markAllAsRead uid ns, n.idReceiver = uid → n.isRead = true) ∧
    (∀ n ∈ ns, n.idReceiver ≠ uid → n ∈ markAllAsRead uid ns) := by
  constructor
  · intro n hn hrec
    rw [markAllAsRead] at hn
    obtain ⟨m, hm, hfm⟩ := List.mem_map.mp hn
    by_cases hcond : (m.idReceiver == uid && !m.isRead) = true
    · rw [if_pos hcond] at hfm
      rw [← hfm]
    · rw [if_neg hcond] at hfm
      subst hfm
      simp only [Bool.and_eq_true, beq_iff_eq, Bool.not_eq_true'] at hcond
      by_cases hb : m.isRead = true
      · exact hb
      · exact absurd ⟨hrec, by simpa using hb⟩ hcond
  · intro n hn hrec
    rw [markAllAsRead]
    refine List.mem_map.mpr ⟨n, hn, ?_⟩
    simp [hrec]

def exNs : List Notification :=
  [⟨1, 2, 1, "system", "a", false, 5⟩, ⟨2, 2, 9, "system", "b", false, 6⟩]

/-- Witness for C7: user 9's notification is untouched by user 1's
`markAllAsRead`. -/
theorem markAllAsRead_spec_witness :
    (⟨2, 2, 9, "system", "b", false, 6⟩ : Notification) ∈ markAllAsRead 1 exNs :=
  (markAllAsRead_spec 1 exNs).2 ⟨2, 2, 9, "system", "b", false, 6⟩ (by decide) (by decide)

/-! ### Login claims (C6, C10) -/

/-- Looking a user up by email after deactivating a user by id. -/
theorem findUserByEmail_deactivate (us : List User) (email : String) (uid : Nat) (u : User)
    (hu : findUserByEmail us email = some u) :
    findUserByEmail (deactivateUser us uid) email =
      some (if u.id == uid then { u with status := false } else u) := by
  unfold findUserByEmail at hu ⊢
  unfold deactivateUser
  rw [find?_map_eq (fun x => if x.id == uid then { x with status := false } else x)
      (fun x => x.email == email)
      (fun x => by by_cases h : (x.id == uid) = true <;> simp [h]) us, hu]
  rfl

/-- Every user record carrying the deactivated id has status false
afterwards. -/
theorem deactivateUser_status (us : List User) (uid : Nat) :
    ∀ x ∈ deactivateUser us uid, x.id = uid → x.status = false := by
  intro x hx hid
  rw [deactivateUser] at hx
  obtain ⟨b, hb, hfb⟩ := List.mem_map.mp hx
  by_cases h : (b.id == uid) = true
  · rw [if_pos h] at hfb
    rw [← hfb]
  · rw [if_neg h] at hfb
    subst hfb
    exact absurd (by simpa using hid) h

/-- Every subscription record carrying the deactivated id has status false
afterwards. -/
theorem deactivateSub_status (subs : List Abonnement) (sid : Nat) :
    ∀ a ∈ deactivateSub subs sid, a.id = sid → a.status = false := by
  intro a ha hid
  rw [deactivateSub] at ha
  obtain ⟨b, hb, hfb⟩ := List.mem_map.mp ha
  by_cases h : (b.id == sid) = true
  · rw [if_pos h] at hfb
    rw [← hfb]
  · rw [if_neg h] at hfb
    subst hfb
    exact absurd (by simpa using hid) h

/-- C6: a correct-credential login of an active client/supplier whose
active subscription has expired is denied with `subscription_expired`,
flips the subscription's status and the user's status to false, and an
immediately repeated login with the same credentials is denied with
`account_not_activated`. -/
theorem login_subscription_expired (st : AuthDB) (email password : String) (u : User)
    (sub : Abonnement) (now : Int)
    (hu : findUserByEmail st.users email = some u)
    (hpw : password = u.password)
    (hrole : u.role = Role.client ∨ u.role = Role.supplier)
    (hstatus : u.status = true)
    (hsub : findActiveSub st.abonnements u.id = some sub)
    (hexp : sub.endDate < now) :
    (login email password st now).1 = .denied "subscription_expired" ∧
    (∀ x ∈ (login email password st now).2.users, x.id = u.id → x.status = false) ∧
    (∀ a ∈ (login email password st now).2.abonnements, a.id = sub.id → a.status = false) ∧
    (login email password (login email password st now).2 now).1 =
      .denied "account_not_activated" := by
  have hbr : login email password st now =
      (.denied "subscription_expired",
       ⟨deactivateUser st.users u.id, deactivateSub st.abonnements sub.id⟩) := by
    simp only [login, hu]
    rw [if_neg (by simp [hpw])]
    rw [if_neg (by simp [hstatus])]
    rw [if_pos ⟨hrole, hstatus⟩]
    simp only [hsub]
    rw [if_pos hexp]
  rw [hbr]
  refine ⟨rfl, deactivateUser_status st.users u.id, deactivateSub_status st.abonnements sub.id, ?_⟩
  have h2 : findUserByEmail (deactivateUser st.users u.id) email =
      some { u with status := false } := by
    have h := findUserByEmail_deactivate st.users email u.id u hu
    simpa using h
  simp only [login, h2]
  rw [if_neg (by simp [hpw])]
  rw [if_pos ⟨hrole, trivial⟩]

def exSupplier : User := ⟨2, "supplier@labo.dz", "pw2", "S", "T", Role.supplier, true⟩

def exExpiredSub : Abonnement := ⟨30, 2, 100, true⟩

def exAuthDB : AuthDB := ⟨[exSupplier], [exExpiredSub]⟩

/-- Witness for C6: supplier 2 with a subscription that ended at time 100
attempting to log in at time 200. -/
theorem login_subscription_expired_witness :
    (login "supplier@labo.dz" "pw2" exAuthDB 200).1 = .denied "subscription_expired" ∧
    (∀ x ∈ (login "supplier@labo.dz" "pw2" exAuthDB 200).2.users,
      x.id = exSupplier.id → x.status = false) ∧
    (∀ a ∈ (login "supplier@labo.dz" "pw2" exAuthDB 200).2.abonnements,
      a.id = exExpiredSub.id → a.status = false) ∧
    (login "supplier@labo.dz" "pw2"
        (login "supplier@labo.dz" "pw2" exAuthDB 200).2 200).1 =
      .denied "account_not_activated" :=
  login_subscription_expired exAuthDB "supplier@labo.dz" "pw2" exSupplier exExpiredSub 200
    rfl rfl (Or.inr rfl) rfl rfl (by decide)

/-- C10: a correct-credential login of an active client/supplier with no
active subscription record at all is denied with `no_subscription` and
flips the user's status to false, the same side effect as the expired
case. -/
theorem login_no_subscription (st : AuthDB) (email password : String) (u : User) (now : Int)
    (hu : findUserByEmail st.users email = some u)
    (hpw : password = u.password)
    (hrole : u.role = Role.client ∨ u.role = Role.supplier)
    (hstatus : u.status = true)
    (hsub : findActiveSub st.abonnements u.id = none) :
    (login email password st now).1 = .denied "no_subscription" ∧
    (login email password st now).2.abonnements = st.abonnements ∧
    (∀ x ∈ (login email password st now).2.users, x.id = u.id → x.status = false) := by
  have hbr : login email password st now =
      (.denied "no_subscription",
       { st with users := deactivateUser st.users u.id }) := by
    simp only [login, hu]
    rw [if_neg (by simp [hpw])]
    rw [if_neg (by simp [hstatus])]
    rw [if_pos ⟨hrole, hstatus⟩]
    simp only [hsub]
  rw [hbr]
  exact ⟨rfl, rfl, deactivateUser_status st.users u.id⟩

def exNoSubDB : AuthDB := ⟨[exSupplier], []⟩

/-- Witness for C10: supplier 2 with no subscription record. -/
theorem login_no_subscription_witness :
    (login "supplier@labo.dz" "pw2" exNoSubDB 200).1 = .denied "no_subscription" ∧
    (login "supplier@labo.dz" "pw2" exNoSubDB 200).2.abonnements = exNoSubDB.abonnements ∧
    (∀ x ∈ (login "supplier@labo.dz" "pw2" exNoSubDB 200).2.users,
      x.id = exSupplier.id → x.status = false) :=
  login_no_subscription exNoSubDB "supplier@labo.dz" "pw2" exSupplier 200
    rfl rfl (Or.inr rfl) rfl rfl

/-! ### Payment claims (C8, C9) -/

/-- The one-payment-per-order invariant (`id_commande` unique). -/
def atMostOnePayment (ps : List Payment) : Prop :=
  ∀ cid : Nat, (ps.filter (fun p => p.id_commande == cid)).length ≤ 1

/-- On a request that passes every check before the tolerance comparison,
`createPayment` reduces to the tolerance test. -/
theorem createPayment_red (db : PayDB) (uid cid : Nat) (t : ℚ) (f : String)
    (newId : Nat) (ord : Commande)
    (hord : findOrder db.orders cid = some ord)
    (hbuyer : ord.idBuyer = uid)
    (hfresh : findPaymentByCommande db.payments cid = none) :
    createPayment (some uid) (some cid) (some t) (some f) db newId =
      (if (1:ℚ)/100 < |ord.total - t| then (.error 400 .totalMismatch, db)
       else (.created ⟨newId, cid, uid, t, f⟩,
         { db with payments := db.payments ++ [⟨newId, cid, uid, t, f⟩] })) := by
  simp only [createPayment, hord, hfresh]
  rw [if_neg (by simp [hbuyer])]

/-- C8: for a payment-creation request by the buyer of an existing order
with no payment yet, the request succeeds exactly when
|provided total - stored total| ≤ 0.01; beyond the tolerance it is
rejected with a 400 response and no payment is persisted. -/
theorem createPayment_tolerance (db : PayDB) (uid cid : Nat) (t : ℚ) (f : String)
    (newId : Nat) (ord : Commande)
    (hord : findOrder db.orders cid = some ord)
    (hbuyer : ord.idBuyer = uid)
    (hfresh : findPaymentByCommande db.payments cid = none) :
    ((∃ p, (createPayment (some uid) (some cid) (some t) (some f) db newId).1 = .created p) ↔
      |ord.total - t| ≤ 1/100) ∧
    ((1:ℚ)/100 < |ord.total - t| →
      (createPayment (some uid) (some cid) (some t) (some f) db newId).1 =
          .error 400 .totalMismatch ∧
        (createPayment (some uid) (some cid) (some t) (some f) db newId).2 = db) := by
  rw [createPayment_red db uid cid t f newId ord hord hbuyer hfresh]
  by_cases h : (1:ℚ)/100 < |ord.total - t|
  · rw [if_pos h]
    refine ⟨⟨?_, ?_⟩, fun _ => ⟨rfl, rfl⟩⟩
    · rintro ⟨p, hp⟩
      simp at hp
    · intro hle
      exact absurd h (not_lt.mpr hle)
  · rw [if_neg h]
    refine ⟨⟨fun _ => not_lt.mp h, fun _ => ⟨_, rfl⟩⟩, fun hlt => absurd hlt h⟩

def exPayDB : PayDB := ⟨[exOrder], []⟩

/-- Witness for C8: buyer 1 paying order 50 (total 10) with the exact
total. -/
theorem createPayment_tolerance_witness :
    ((∃ p, (createPayment (some 1) (some 50) (some 10) (some "proof.pdf") exPayDB 70).1 =
        .created p) ↔ |exOrder.total - 10| ≤ 1/100) ∧
    ((1:ℚ)/100 < |exOrder.total - 10| →
      (createPayment (some 1) (some 50) (some 10) (some "proof.pdf") exPayDB 70).1 =
          .error 400 .totalMismatch ∧
        (createPayment (some 1) (some 50) (some 10) (some "proof.pdf") exPayDB 70).2 =
          exPayDB) :=
  createPayment_tolerance exPayDB 1 50 10 "proof.pdf" 70 exOrder rfl rfl rfl

/-- Every path of `createPayment` either leaves the database untouched or
appends one payment for an order id that had none. -/
theorem createPayment_state_cases (userId : Option Nat) (id_commande : Option Nat)
    (total : Option ℚ) (file : Option String) (db : PayDB) (newId : Nat) :
    (createPayment userId id_commande total file db newId).2 = db ∨
    ∃ cid pay, findPaymentByCommande db.payments cid = none ∧
      pay.id_commande = cid ∧
      (createPayment userId id_commande total file db newId).2.payments =
        db.payments ++ [pay] := by
  unfold createPayment
  rcases userId with _ | uid
  · exact Or.inl rfl
  rcases id_commande with _ | cid
  · exact Or.inl rfl
  rcases total with _ | t
  · exact Or.inl rfl
  rcases file with _ | f
  · exact Or.inl rfl
  dsimp only
  cases hord : findOrder db.orders cid with
  | none => exact Or.inl rfl
  | some ord =>
    dsimp only
    by_cases hb : ord.idBuyer ≠ uid
    · rw [if_pos hb]
      exact Or.inl rfl
    · rw [if_neg hb]
      cases hdup : findPaymentByCommande db.payments cid with
      | some p => exact Or.inl rfl
      | none =>
        dsimp only
        by_cases hm : (1:ℚ)/100 < |ord.total - t|
        · rw [if_pos hm]
          exact Or.inl rfl
        · rw [if_neg hm]
          exact Or.inr ⟨cid, ⟨newId, cid, uid, t, f⟩, hdup, rfl, rfl⟩

/-- Appending a payment for an order with no payment yet preserves the
invariant. -/
theorem atMostOne_append (ps : List Payment) (pay : Payment)
    (hinv : atMostOnePayment ps)
    (hnone : findPaymentByCommande ps pay.id_commande = none) :
    atMostOnePayment (ps ++ [pay]) := by
  intro cid
  rw [List.filter_append]
  by_cases h : (pay.id_commande == cid) = true
  · have hpc : pay.id_commande = cid := by simpa using h
    have hemp : ps.filter (fun p => p.id_commande == cid) = [] := by
      rw [List.filter_eq_nil_iff]
      intro x hx
      have hne := List.find?_eq_none.mp hnone x hx
      simp only [beq_iff_eq] at hne ⊢
      rw [← hpc]
      simpa using hne
    rw [hemp]
    simp [h]
  · have hemp : List.filter (fun p => p.id_commande == cid) [pay] = [] := by
      simp [List.filter, h]
    rw [hemp, List.append_nil]
    exact hinv cid

/-- C9: a payment-creation request for an order that already has a payment
is rejected with 400 and writes nothing, and the at-most-one-payment-per-
order invariant is preserved by every `createPayment` call. -/
theorem createPayment_at_most_one (userId : Option Nat) (id_commande : Option Nat)
    (total : Option ℚ) (file : Option String) (db : PayDB) (newId : Nat)
    (hinv : atMostOnePayment db.payments) :
    atMostOnePayment (createPayment userId id_commande total file db newId).2.payments ∧
    (∀ uid cid t f ord pay,
      userId = some uid → id_commande = some cid → total = some t → file = some f →
      findOrder db.orders cid = some ord → ord.idBuyer = uid →
      findPaymentByCommande db.payments cid = some pay →
      (createPayment userId id_commande total file db newId).1 =
          .error 400 .duplicatePayment ∧
        (createPayment userId id_commande total file db newId).2 = db) := by
  constructor
  · rcases createPayment_state_cases userId id_commande total file db newId with
      h | ⟨cid, pay, hnone, hcid, heq⟩
    · rw [h]
      exact hinv
    · rw [heq]
      subst hcid
      exact atMostOne_append db.payments pay hinv hnone
  · rintro uid cid t f ord pay rfl rfl rfl rfl hord hbuyer hdup
    have hred : createPayment (some uid) (some cid) (some t) (some f) db newId =
        (.error 400 .duplicatePayment, db) := by
      simp only [createPayment, hord, hdup]
      rw [if_neg (by simp [hbuyer])]
    rw [hred]
    exact ⟨rfl, rfl⟩

def exPayment : Payment := ⟨70, 50, 1, 10, "a.pdf"⟩

def exDupPayDB : PayDB := ⟨[exOrder], [exPayment]⟩

/-- Witness for C9: a second payment request against order 50, which
already has payment 70, is rejected with 400 and the invariant holds. -/
theorem createPayment_at_most_one_witness :
    atMostOnePayment
      (createPayment (some 1) (some 50) (some 10) (some "b.pdf") exDupPayDB 71).2.payments ∧
    (createPayment (some 1) (some 50) (some 10) (some "b.pdf") exDupPayDB 71).1 =
      .error 400 .duplicatePayment := by
  have hinv : atMostOnePayment exDupPayDB.payments :=
    fun cid => le_trans (List.length_filter_le _ _) (by decide)
  have h := createPayment_at_most_one (some 1) (some 50) (some 10) (some "b.pdf")
    exDupPayDB 71 hinv
  exact ⟨h.1, (h.2 1 50 10 "b.pdf" exOrder exPayment rfl rfl rfl rfl rfl rfl rfl).1⟩

end Labo
